import Mathlib

/-!
Shallow embedding of the Blackjack game in `FinalGameProject.py`:
cards and deck, the money ledger, hand valuation, the per-player turn
state machine (hit / stand / double down / split), deck replenishment,
main-bet resolution and side-bet evaluation, together with theorems
checking the specification's claims against these definitions.
-/

namespace Blackjack

/-- A card value as stored in `Deck.ranks`: either a fixed integer, or the
Python list `[1, 11]` used for the flexible Ace (the source detects an Ace
with `isinstance(card.value, list)`). -/
inductive CardValue where
  | fixed (n : Nat)
  | ace
  deriving DecidableEq

/-- Embeds the `Cards` class: a suit, a rank and a value. -/
structure Cards where
  suit : String
  rank : String
  value : CardValue
  deriving DecidableEq

/-- The suit list of `Deck.__init__`. -/
def suits : List String := ["Diamonds", "Spades", "Clubs", "Hearts"]

/-- The rank-to-value table of `Deck.__init__`. -/
def ranks : List (String × CardValue) :=
  [("2", .fixed 2), ("3", .fixed 3), ("4", .fixed 4), ("5", .fixed 5),
   ("6", .fixed 6), ("7", .fixed 7), ("8", .fixed 8), ("9", .fixed 9),
   ("10", .fixed 10), ("Jack", .fixed 10), ("Queen", .fixed 10),
   ("King", .fixed 10), ("Ace", .ace)]

/-- Embeds `Deck._create_deck`: one card per suit and rank, 52 in all. -/
def create_deck : List Cards :=
  suits.flatMap (fun s => ranks.map (fun rv => ⟨s, rv.1, rv.2⟩))

/-- Embeds `Deck.dealcards`.  The Python list is used as a stack:
`self.cards.pop()` removes and returns the LAST element; on an empty deck a
`ValueError` is raised before any mutation, so the deck is returned
unchanged next to the error. -/
def dealcards (cards : List Cards) : Except String Cards × List Cards :=
  match cards.getLast? with
  | none => (.error "Deck is empty, cannot deal any more cards.", cards)
  | some c => (.ok c, cards.dropLast)

/-- Embeds `Deck.add_additional_deck`: append a fresh 52-card set, then
shuffle.  `random.shuffle` permutes the list in place; the permutation is
abstracted as an explicit `shuffle` function parameter. -/
def add_additional_deck (shuffle : List Cards → List Cards)
    (cards : List Cards) : List Cards :=
  shuffle (cards ++ create_deck)

/-- Embeds `Game.check_deck_size` for a roster of `numPlayers` players:
`remaining_players = len(self.players) + 1` (dealer included), and a fresh
deck is added when fewer than `remaining_players * 2 + 15` cards remain. -/
def check_deck_size (shuffle : List Cards → List Cards) (numPlayers : Nat)
    (cards : List Cards) : List Cards :=
  let remaining_players := numPlayers + 1
  if cards.length < remaining_players * 2 + 15 then
    add_additional_deck shuffle cards
  else
    cards

/-- Embeds `Money.bet_amount`.  Balances are Python integers, so `Int`.
The `raise` happens before `self.balance -= amount`, so on failure the
returned balance is the unchanged input balance (check-then-commit). -/
def bet_amount (balance : Int) (amount : Int) : Except String Int × Int :=
  if amount > balance then
    (.error "Not enough balance to place this bet!", balance)
  else
    (.ok amount, balance - amount)

/-- Embeds `Money.win_bet`: `self.balance += amount * 2`. -/
def win_bet (balance : Int) (amount : Int) : Int := balance + amount * 2

/-- Embeds `Money.lose_bet`: a no-op. -/
def lose_bet (balance : Int) : Int := balance

/-- True exactly on the Ace value, mirroring `isinstance(card.value, list)`. -/
def isAceValue : CardValue → Bool
  | .ace => true
  | .fixed _ => false

/-- One iteration of the `for card in self.hand` loop of
`Player.calculate_total`: the accumulator is `(total, aces)`. -/
def handStep (acc : Nat × Nat) (c : Cards) : Nat × Nat :=
  match c.value with
  | .ace => (acc.1 + 11, acc.2 + 1)
  | .fixed n => (acc.1 + n, acc.2)

/-- The `while total > 21 and aces > 0` loop of `Player.calculate_total`:
each pass subtracts 10 and spends one flexible ace. -/
def reduceAces : Nat → Nat → Nat
  | total, 0 => total
  | total, a + 1 => if total > 21 then reduceAces (total - 10) a else total

/-- Embeds `Player.calculate_total`: accumulate card values (Aces as 11,
counting them), then reduce Aces from 11 to 1 while the total busts. -/
def calculate_total (hand : List Cards) : Nat :=
  let acc := hand.foldl handStep (0, 0)
  reduceAces acc.1 acc.2

/-- The value a non-Ace card contributes; 0 on an Ace (never used there). -/
def fixedValue (c : Cards) : Nat :=
  match c.value with
  | .ace => 0
  | .fixed n => n

/-- Modelled from the spec's words (section 4.2), for comparison with
`calculate_total`: sum the fixed values of all non-Ace cards, add 11 per
Ace, then while the total exceeds 21 and a flexible ace remains subtract
10. -/
def spec_total (hand : List Cards) : Nat :=
  let base := ((hand.filter (fun c => !(isAceValue c.value))).map fixedValue).sum
  let aces := (hand.filter (fun c => isAceValue c.value)).length
  reduceAces (base + 11 * aces) aces

/-- The tentative value a card contributes before ace reduction. -/
def contrib (c : Cards) : Nat :=
  match c.value with
  | .ace => 11
  | .fixed n => n

/-- The number of Aces in a hand. -/
def countAces (hand : List Cards) : Nat :=
  (hand.filter (fun c => isAceValue c.value)).length

/-- Embeds `Game.check_winner` as the new balance it leaves: bust loses
(`lose_bet`, a no-op), then dealer bust or higher player total wins
(`win_bet` on the current bet), then lower player total loses, and a tie
returns the bet (`self.balance += player.current_bet`). -/
def check_winner (player_total dealer_total : Nat) (current_bet balance : Int) : Int :=
  if player_total > 21 then
    lose_bet balance
  else if dealer_total > 21 ∨ player_total > dealer_total then
    win_bet balance current_bet
  else if player_total < dealer_total then
    lose_bet balance
  else
    balance + current_bet

/-- The three side-bet amounts stored in `player.side_bets`;
`Game.request_side_bets` always sets all three keys (0 when declined). -/
structure SideBets where
  dealer_bust : Int
  mixed_pair : Int
  same_pair : Int
  deriving DecidableEq

/-- Embeds `Game.evaluate_side_bets` as the new balance it leaves.
`if player.side_bets.get(key)` is Python truthiness: a bet of 0 is falsy,
any nonzero amount is truthy.  `card1, card2 = player.hand[:2]`. -/
def evaluate_side_bets (sb : SideBets) (card1 card2 : Cards)
    (dealer_total : Nat) (balance : Int) : Int :=
  let b1 := if sb.dealer_bust ≠ 0 ∧ dealer_total > 21 then
    win_bet balance (sb.dealer_bust * 3) else balance
  let b2 := if sb.mixed_pair ≠ 0 ∧ card1.rank = card2.rank ∧ card1.suit ≠ card2.suit then
    win_bet b1 (sb.mixed_pair * 5) else b1
  if sb.same_pair ≠ 0 ∧ card1.rank = card2.rank ∧ card1.suit = card2.suit then
    win_bet b2 (sb.same_pair * 12) else b2

/-- The betting slice of the `Player` state: its `Money` balance and its
`current_bet` field. -/
structure Wallet where
  balance : Int
  current_bet : Int
  deriving DecidableEq

/-- Embeds `Player.place_bet`: `self.current_bet = self.money.bet_amount(amount)`.
On failure the exception propagates before the assignment, so neither field
changes. -/
def place_bet (w : Wallet) (amount : Int) : Except String Wallet :=
  match bet_amount w.balance amount with
  | (.ok amt, newBal) => .ok ⟨newBal, amt⟩
  | (.error e, _) => .error e

/-- Embeds `Player.win_bet`: `self.money.win_bet(self.current_bet)`. -/
def player_win_bet (w : Wallet) : Wallet :=
  ⟨win_bet w.balance w.current_bet, w.current_bet⟩

/-- Deal `n` cards in sequence with `Deck.dealcards`, as `Game.start_round`
does (two per player, then two for the dealer); the first raised
`EmptyDeck` error propagates. -/
def dealN : Nat → List Cards → Except String (List Cards × List Cards)
  | 0, cards => .ok ([], cards)
  | n + 1, cards =>
    match dealcards cards with
    | (.error e, _) => .error e
    | (.ok c, rest) =>
      match dealN n rest with
      | .error e => .error e
      | .ok (dealt, rem) => .ok (c :: dealt, rem)

/-- The turn-action tokens read by `Game.player_turn`: `h`, `s`, `d`, `sp`,
or anything else (an invalid token that only re-prompts). -/
inductive Action where
  | hit
  | stand
  | double
  | split
  | other
  deriving DecidableEq

/-- The player state mutated during `Game.player_turn`: the hand, the shared
deck, and the betting fields (`player.money.balance`, `player.current_bet`). -/
structure TurnState where
  hand : List Cards
  deck : List Cards
  balance : Int
  current_bet : Int
  deriving DecidableEq

mutual

/-- Embeds `Game.player_turn` run against a finite input script.  Returns
`(notBusted, state, remainingInput, trace)` where the trace records every
performed action together with its split depth (0 = the primary hand,
`d + 1` = a hand produced by a split at depth `d`).  A double down whose
`place_bet` raises is caught and the loop continues; a double down whose
deal raises is also caught (`player.add_card` sits inside the same `try`),
after the bet was already debited.  Deal errors elsewhere propagate.
Fuel 0 and an exhausted script return like a final `return True` (the
source would block on `input()`); every run below uses ample fuel. -/
def player_turn (fuel : Nat) (depth : Nat) (inp : List Action) (s : TurnState) :
    Except String (Bool × TurnState × List Action × List (Nat × Action)) :=
  match fuel, inp with
  | 0, inp => .ok (true, s, inp, [])
  | _ + 1, [] => .ok (true, s, [], [])
  | fuel + 1, act :: rest =>
    match act with
    | .double =>
      if s.hand.length = 2 then
        match bet_amount s.balance s.current_bet with
        | (.error _, _) => player_turn fuel depth rest s
        | (.ok amt, newBal) =>
          match dealcards s.deck with
          | (.error _, _) =>
            player_turn fuel depth rest
              { s with balance := newBal, current_bet := amt }
          | (.ok c, deck2) =>
            .ok (true,
              { hand := s.hand ++ [c], deck := deck2,
                balance := newBal, current_bet := amt },
              rest, [(depth, Action.double)])
      else
        player_turn fuel depth rest s
    | .split =>
      match s.hand with
      | [c1, c2] =>
        if c1.rank = c2.rank then
          match split_hand fuel depth rest { s with hand := [c1, c2] } with
          | .error e => .error e
          | .ok (s2, rem, tr) => .ok (true, s2, rem, (depth, Action.split) :: tr)
        else
          player_turn fuel depth rest s
      | _ => player_turn fuel depth rest s
    | .hit =>
      match dealcards s.deck with
      | (.error e, _) => .error e
      | (.ok c, deck2) =>
        let s2 : TurnState := { s with hand := s.hand ++ [c], deck := deck2 }
        if calculate_total s2.hand > 21 then
          .ok (false, s2, rest, [(depth, Action.hit)])
        else
          match player_turn fuel depth rest s2 with
          | .error e => .error e
          | .ok (b, s3, rem, tr) => .ok (b, s3, rem, (depth, Action.hit) :: tr)
    | .stand => .ok (true, s, rest, [(depth, Action.stand)])
    | .other => player_turn fuel depth rest s

/-- Embeds `Game.split_hand`: the pair is split into two one-card hands;
each hand in turn receives one dealt card and is then played through
`player_turn` (at depth one greater), sequentially on the same script.
The busted flags are printed and dropped, as in the source. -/
def split_hand (fuel : Nat) (depth : Nat) (inp : List Action) (s : TurnState) :
    Except String (TurnState × List Action × List (Nat × Action)) :=
  match fuel with
  | 0 => .ok (s, inp, [])
  | fuel + 1 =>
    match s.hand with
    | [card1, card2] =>
      match dealcards s.deck with
      | (.error e, _) => .error e
      | (.ok c1, deck1) =>
        match player_turn fuel (depth + 1) inp
            { s with hand := [card1, c1], deck := deck1 } with
        | .error e => .error e
        | .ok (_, s1, rem1, tr1) =>
          match dealcards s1.deck with
          | (.error e, _) => .error e
          | (.ok c2, deck2) =>
            match player_turn fuel (depth + 1) rem1
                { s1 with hand := [card2, c2], deck := deck2 } with
            | .error e => .error e
            | .ok (_, s2, rem2, tr2) => .ok (s2, rem2, tr1 ++ tr2)
    | _ => .ok (s, inp, [])

end

/-- The trace of performed actions of a full `player_turn` run starting on
the primary hand (depth 0); empty when an uncaught deal error aborts. -/
def runTrace (fuel : Nat) (inp : List Action) (s : TurnState) : List (Nat × Action) :=
  match player_turn fuel 0 inp s with
  | .ok (_, _, _, tr) => tr
  | .error _ => []

/-- Scenario: a pair of 8s about to be split, with the deck arranged (deals
pop from the end) to give the first split hand a 5, a double-down card of 4,
and the second split hand a 3. -/
def stateA : TurnState :=
  { hand := [⟨"Spades", "8", .fixed 8⟩, ⟨"Hearts", "8", .fixed 8⟩],
    deck := [⟨"Hearts", "2", .fixed 2⟩, ⟨"Clubs", "3", .fixed 3⟩,
             ⟨"Hearts", "4", .fixed 4⟩, ⟨"Spades", "5", .fixed 5⟩],
    balance := 100, current_bet := 10 }

/-- Scenario: a pair of 8s about to be split, with the deck arranged so the
first split hand draws another 8 (making a re-splittable pair), then 3, 4,
5 for the subsequent hands. -/
def stateB : TurnState :=
  { hand := [⟨"Spades", "8", .fixed 8⟩, ⟨"Clubs", "8", .fixed 8⟩],
    deck := [⟨"Hearts", "5", .fixed 5⟩, ⟨"Clubs", "4", .fixed 4⟩,
             ⟨"Spades", "3", .fixed 3⟩, ⟨"Diamonds", "8", .fixed 8⟩],
    balance := 100, current_bet := 10 }

/-- A small concrete deck used as a witness input. -/
def sampleDeck : List Cards :=
  [⟨"Hearts", "2", .fixed 2⟩, ⟨"Spades", "King", .fixed 10⟩]

/-- Four Aces, one per suit. -/
def fourAces : List Cards :=
  [⟨"Diamonds", "Ace", .ace⟩, ⟨"Spades", "Ace", .ace⟩,
   ⟨"Clubs", "Ace", .ace⟩, ⟨"Hearts", "Ace", .ace⟩]

/-- Ace and King: the blackjack hand of the spec's scenario. -/
def aceKing : List Cards :=
  [⟨"Spades", "Ace", .ace⟩, ⟨"Hearts", "King", .fixed 10⟩]

lemma countAces_cons (c : Cards) (rest : List Cards) :
    countAces (c :: rest)
      = (if isAceValue c.value then 1 else 0) + countAces rest := by
  simp only [countAces, List.filter_cons]
  by_cases h : isAceValue c.value
  · simp [h, Nat.add_comm]
  · simp [h]

lemma handStep_eq (acc : Nat × Nat) (c : Cards) :
    handStep acc c
      = (acc.1 + contrib c, acc.2 + if isAceValue c.value then 1 else 0) := by
  cases hv : c.value <;> simp [handStep, contrib, isAceValue, hv]

lemma foldl_handStep (hand : List Cards) (t a : Nat) :
    hand.foldl handStep (t, a) = (t + (hand.map contrib).sum, a + countAces hand) := by
  induction hand generalizing t a with
  | nil => simp [countAces]
  | cons c rest ih =>
    rw [List.foldl_cons, handStep_eq, ih, countAces_cons]
    simp only [List.map_cons, List.sum_cons, Prod.mk.injEq]
    by_cases h : isAceValue c.value <;> (simp [h]; omega)

lemma calculate_total_eq (hand : List Cards) :
    calculate_total hand = reduceAces ((hand.map contrib).sum) (countAces hand) := by
  unfold calculate_total
  rw [foldl_handStep]
  simp

lemma contrib_sum_split (hand : List Cards) :
    (hand.map contrib).sum
      = ((hand.filter (fun c => !(isAceValue c.value))).map fixedValue).sum
        + 11 * countAces hand := by
  induction hand with
  | nil => simp [countAces]
  | cons c rest ih =>
    rw [List.map_cons, List.sum_cons, ih, countAces_cons, List.filter_cons]
    cases hv : c.value with
    | ace =>
      have hc : contrib c = 11 := by simp [contrib, hv]
      simp [isAceValue, hc]
      omega
    | fixed n =>
      have hc : contrib c = n := by simp [contrib, hv]
      have hf : fixedValue c = n := by simp [fixedValue, hv]
      simp [isAceValue, hc, hf]
      omega

lemma dealN_ok (n : Nat) (cards : List Cards) (h : n ≤ cards.length) :
    ∃ dealt rem, dealN n cards = .ok (dealt, rem) ∧ rem.length = cards.length - n := by
  induction n generalizing cards with
  | zero => exact ⟨[], cards, rfl, by simp⟩
  | succ n ih =>
    rcases List.eq_nil_or_concat cards with rfl | ⟨L, b, rfl⟩
    · simp at h
    · have hL : n ≤ L.length := by
        simp only [List.concat_eq_append, List.length_append, List.length_cons,
          List.length_nil] at h
        omega
      obtain ⟨dealt, rem, hd, hlen⟩ := ih L hL
      refine ⟨b :: dealt, rem, ?_, ?_⟩
      · simp [dealN, dealcards, List.getLast?_concat, List.dropLast_concat, hd]
      · simp only [List.concat_eq_append, List.length_append, List.length_cons,
          List.length_nil]
        omega

/-- C1: evaluating the side-bet payout code at its failing input.  A
Same-Pair side bet of 10 on 8♦ 8♦, placed from a balance of 1000, debits 10
(balance 990) and, on winning, is credited through
`win_bet(side_bets['same_pair'] * 12)`, which ADDS TWICE its argument:
the balance ends at 1230, a net gain of 230 — not the net gain of 120
(10 × 12) that the claim (and the game's own `12:1 payout` prompt) state. -/
theorem same_pair_payout_eval :
    (bet_amount 1000 10).1 = Except.ok 10 ∧ (bet_amount 1000 10).2 = 990 ∧
    evaluate_side_bets ⟨0, 0, 10⟩ ⟨"Diamonds", "8", .fixed 8⟩
      ⟨"Diamonds", "8", .fixed 8⟩ 20 990 = 1230 ∧
    (1230 : Int) - 1000 = 230 := by
  refine ⟨by rfl, by decide, by decide, by decide⟩

/-- C2: main-bet resolution.  With `B0 - bet` the balance at resolution
time (the bet `bet` having been debited from `B0` at placement): a busted
player (total > 21) keeps `B0 - bet` regardless of the dealer's total,
dealer bust included; a dealer bust or a higher player total credits
`2 × bet`, ending at `B0 + bet` (net gain `+bet`); a lower player total
keeps `B0 - bet`; equal totals return the bet, ending at exactly `B0`. -/
theorem check_winner_spec (pt dt : Nat) (bet B0 : Int) :
    check_winner pt dt bet (B0 - bet)
      = if pt > 21 then B0 - bet
        else if dt > 21 ∨ pt > dt then B0 + bet
        else if pt < dt then B0 - bet
        else B0 := by
  unfold check_winner win_bet lose_bet
  split_ifs <;> ring

/-- C3: `calculate_total` agrees with the spec's reference valuation (sum
the fixed values of the non-Aces, add 11 per Ace, then subtract 10 while
the total exceeds 21 and a flexible ace remains); four Aces total 14 and
Ace plus King totals 21, not 31. -/
theorem calculate_total_correct :
    (∀ hand : List Cards, calculate_total hand = spec_total hand) ∧
    calculate_total fourAces = 14 ∧ calculate_total aceKing = 21 := by
  refine ⟨fun hand => ?_, by decide, by decide⟩
  rw [calculate_total_eq, contrib_sum_split]
  simp only [spec_total, countAces]

/-- C4: hand valuation is invariant under any permutation of the hand. -/
theorem calculate_total_perm_invariant (h1 h2 : List Cards) (hp : h1.Perm h2) :
    calculate_total h1 = calculate_total h2 := by
  rw [calculate_total_eq, calculate_total_eq]
  have hs : (h1.map contrib).sum = (h2.map contrib).sum := (hp.map contrib).sum_eq
  have ha : countAces h1 = countAces h2 := by
    simp only [countAces]
    exact (hp.filter _).length_eq
  rw [hs, ha]

/-- C4 witness: the Ace-King hand and its reversal value identically. -/
theorem calculate_total_perm_invariant_witness :
    calculate_total aceKing = calculate_total aceKing.reverse :=
  calculate_total_perm_invariant aceKing aceKing.reverse
    (List.reverse_perm aceKing).symm

/-- C5: `Money.bet_amount` fails with the insufficient-balance error
exactly when the amount exceeds the balance; on failure the balance is
unchanged (the raise precedes any mutation), and on success the balance
becomes `B - A` and the committed amount `A` is returned. -/
theorem bet_amount_spec (B A : Int) :
    ((bet_amount B A).1 = Except.error "Not enough balance to place this bet!"
        ↔ A > B) ∧
    (A > B → (bet_amount B A).2 = B) ∧
    (A ≤ B → bet_amount B A = (Except.ok A, B - A)) := by
  by_cases h : A > B
  · refine ⟨by simp [bet_amount, h], fun _ => by simp [bet_amount, h],
      fun hle => absurd h (not_lt.mpr hle)⟩
  · refine ⟨by simp [bet_amount, h], fun hgt => absurd hgt h,
      fun _ => by simp [bet_amount, h]⟩

/-- C5 witness: betting 40 from 100 succeeds and leaves 60. -/
theorem bet_amount_spec_witness :
    bet_amount 100 40 = (Except.ok 40, 100 - 40) :=
  (bet_amount_spec 100 40).2.2 (by norm_num)

/-- C6: `Deck.dealcards` fails with the empty-deck error exactly on the
empty deck, leaving it unchanged; on a non-empty deck it removes and
returns the last card, so the remaining size decreases by exactly one. -/
theorem dealcards_spec (cards : List Cards) :
    (cards = [] →
      dealcards cards
        = (Except.error "Deck is empty, cannot deal any more cards.", cards)) ∧
    (cards ≠ [] → ∃ c, dealcards cards = (Except.ok c, cards.dropLast) ∧
      cards.dropLast ++ [c] = cards ∧
      cards.dropLast.length + 1 = cards.length) := by
  constructor
  · rintro rfl
    rfl
  · intro hne
    rcases List.eq_nil_or_concat cards with h | ⟨L, b, rfl⟩
    · exact absurd h hne
    · refine ⟨b, ?_, ?_, ?_⟩
      · simp [dealcards, List.getLast?_concat, List.dropLast_concat]
      · simp [List.dropLast_concat]
      · simp [List.dropLast_concat]

/-- C6 witness: dealing from the empty deck fails and leaves it empty;
dealing from a two-card deck removes and returns the last card. -/
theorem dealcards_spec_witness :
    dealcards ([] : List Cards)
      = (Except.error "Deck is empty, cannot deal any more cards.", []) ∧
    (∃ c, dealcards sampleDeck = (Except.ok c, sampleDeck.dropLast) ∧
      sampleDeck.dropLast ++ [c] = sampleDeck ∧
      sampleDeck.dropLast.length + 1 = sampleDeck.length) :=
  ⟨(dealcards_spec []).1 rfl, (dealcards_spec sampleDeck).2 (by decide)⟩

/-- C7 (amended): before a round with `p` players, if fewer than
`(p + 1) * 2 + 15` cards remain a fresh 52-card set is appended and the
deck reshuffled, so its size grows by exactly 52; otherwise the deck is
untouched.  The subsequent dealing of two cards to each player and the
dealer then succeeds without the empty-deck error PROVIDED `p + 1 ≤ 26`
(the replenished deck holds at least 52 cards, enough for at most 26
two-card hands; the unreplenished case always has `≥ 2(p+1) + 15`). -/
theorem check_deck_size_spec (shuffle : List Cards → List Cards) (p : Nat)
    (cards : List Cards) (hlen : ∀ l, (shuffle l).length = l.length) :
    (cards.length < (p + 1) * 2 + 15 →
      (check_deck_size shuffle p cards).length = cards.length + 52) ∧
    (¬ cards.length < (p + 1) * 2 + 15 →
      check_deck_size shuffle p cards = cards) ∧
    (p + 1 ≤ 26 → ∃ dealt rem,
      dealN ((p + 1) * 2) (check_deck_size shuffle p cards)
        = .ok (dealt, rem)) := by
  have h52 : create_deck.length = 52 := by decide
  refine ⟨?_, ?_, ?_⟩
  · intro h
    simp [check_deck_size, h, add_additional_deck, hlen, h52]
  · intro h
    simp [check_deck_size, h]
  · intro hp
    by_cases h : cards.length < (p + 1) * 2 + 15
    · have hlen2 : (check_deck_size shuffle p cards).length = cards.length + 52 := by
        simp [check_deck_size, h, add_additional_deck, hlen, h52]
      obtain ⟨dealt, rem, hd, -⟩ :=
        dealN_ok ((p + 1) * 2) (check_deck_size shuffle p cards)
          (by rw [hlen2]; omega)
      exact ⟨dealt, rem, hd⟩
    · have heq : check_deck_size shuffle p cards = cards := by
        simp [check_deck_size, h]
      obtain ⟨dealt, rem, hd, -⟩ :=
        dealN_ok ((p + 1) * 2) (check_deck_size shuffle p cards)
          (by rw [heq]; omega)
      exact ⟨dealt, rem, hd⟩

/-- C7 witness: one player, empty deck, identity shuffle: replenishment
adds 52 cards and the two-card deal then succeeds. -/
theorem check_deck_size_spec_witness :
    ((check_deck_size id 0 []).length = ([] : List Cards).length + 52) ∧
    (∃ dealt rem, dealN ((0 + 1) * 2) (check_deck_size id 0 [])
      = .ok (dealt, rem)) := by
  obtain ⟨h1, h2, h3⟩ := check_deck_size_spec id 0 [] (fun l => rfl)
  exact ⟨h1 (by norm_num), h3 (by norm_num)⟩

/-- C7 counterexample: with 26 players (27 entities, dealer included) and
an empty deck, replenishment does add exactly 52 cards, yet the subsequent
round dealing of 54 cards raises the empty-deck error — the claim's
"dealing succeeds" clause fails for rosters larger than 25 players. -/
theorem check_deck_size_deal_counterexample :
    ([] : List Cards).length < (26 + 1) * 2 + 15 ∧
    (check_deck_size id 26 []).length = ([] : List Cards).length + 52 ∧
    dealN ((26 + 1) * 2) (check_deck_size id 26 [])
      = Except.error "Deck is empty, cannot deal any more cards." := by
  refine ⟨by norm_num, by decide, by rfl⟩

/-- C8 counterexample: splitting a pair of 8s and answering `d` for the
first split hand performs a DoubleDown at split depth 1 — the trace of the
run refutes "the processing of each split hand performs only Hit and Stand
transitions". -/
theorem split_only_hit_stand_counterexample :
    runTrace 10 [Action.split, Action.double, Action.stand] stateA
      = [(0, Action.split), (1, Action.double), (1, Action.stand)] ∧
    ¬ (∀ e ∈ runTrace 10 [Action.split, Action.double, Action.stand] stateA,
        1 ≤ e.1 → e.2 = Action.hit ∨ e.2 = Action.stand) := by
  refine ⟨by decide, by decide⟩

/-- C8 (amended): split hands are played through the same turn state
machine as a primary hand, with every action available under its usual
legality conditions: a two-card split hand can double down, and a split
hand that draws a matching rank can be re-split. -/
theorem split_full_state_machine :
    (1, Action.double)
      ∈ runTrace 10 [Action.split, Action.double, Action.stand] stateA ∧
    (1, Action.split)
      ∈ runTrace 10
          [Action.split, Action.split, Action.stand, Action.stand, Action.stand]
          stateB := by
  refine ⟨by decide, by decide⟩

/-- C9: doubling down re-invokes the bet mechanism with the current bet
`B`, which debits another `B` but leaves `current_bet = B` (the mechanism
returns its argument); a subsequent win credits only `2 × B`, so a won
doubled-down hand nets exactly 0 relative to the balance before the
original bet. -/
theorem double_down_net_zero (B0 B : Int) (h1 : B ≤ B0) (h2 : B ≤ B0 - B) :
    place_bet ⟨B0, 0⟩ B = Except.ok ⟨B0 - B, B⟩ ∧
    place_bet ⟨B0 - B, B⟩ B = Except.ok ⟨B0 - B - B, B⟩ ∧
    player_win_bet ⟨B0 - B - B, B⟩ = ⟨B0, B⟩ := by
  refine ⟨?_, ?_, ?_⟩
  · simp [place_bet, bet_amount, not_lt.mpr h1]
  · simp [place_bet, bet_amount, not_lt.mpr h2]
  · have hb : B0 - B - B + B * 2 = B0 := by ring
    simp [player_win_bet, win_bet, hb]

/-- C9 witness: bet 30 from 100, double down, win: the balance returns to
exactly 100 and the recorded bet stays 30 throughout. -/
theorem double_down_net_zero_witness :
    place_bet ⟨100, 0⟩ 30 = Except.ok ⟨100 - 30, 30⟩ ∧
    place_bet ⟨100 - 30, 30⟩ 30 = Except.ok ⟨100 - 30 - 30, 30⟩ ∧
    player_win_bet ⟨100 - 30 - 30, 30⟩ = ⟨100, 30⟩ :=
  double_down_net_zero 100 30 (by norm_num) (by norm_num)

/-- C10: the ledger enforces no lower bound of zero on bet amounts: any
integer amount `A ≤ B` succeeds with new balance `B - A`, and a negative
`A` strictly increases the balance. -/
theorem bet_amount_no_lower_bound (B A : Int) (h : A ≤ B) :
    bet_amount B A = (Except.ok A, B - A) ∧ (A < 0 → B < B - A) := by
  constructor
  · simp [bet_amount, not_lt.mpr h]
  · intro hneg
    omega

/-- C10 witness: a bet of −50 from balance 100 succeeds and raises the
balance to 150. -/
theorem bet_amount_no_lower_bound_witness :
    bet_amount 100 (-50) = (Except.ok (-50), 100 - (-50)) ∧
    ((-50 : Int) < 0 → (100 : Int) < 100 - (-50)) :=
  bet_amount_no_lower_bound 100 (-50) (by norm_num)

end Blackjack
